import Mathlib

/-
Verification development for the quick-transcriber application
(src/transcriber.py, class TranscriberApp).

Modelling conventions:
- Python strings are modelled as `List Char`; the ASCII fragment of
  `str.islower` / `str.upper` is modelled with `Char.isLower` / `Char.toUpper`.
- The mutable `TranscriberApp` object is modelled as an explicit record
  `AppState`; Qt signal emissions become append-only event logs inside the
  record; clipboard/keystroke effects become an append-only `sinkCalls` log.
- Wall-clock time (`time.time()`) is modelled as a rational number passed in
  explicitly.
- External failures (audio stream open failure, clipboard dispatch failure)
  are modelled by an explicit Boolean parameter at the point where the Python
  code has a try/except.
-/

namespace Transcriber

/-- The whitespace test underlying Python `str.strip` / `str.rstrip`
(ASCII whitespace: space, tab, newline, carriage return, vertical tab,
form feed). -/
def isSpaceChar (c : Char) : Bool :=
  c == ' ' || c == '\t' || c == '\n' || c == '\r' || c == '\x0b' || c == '\x0c'

/-- Python `str.rstrip()` on the list-of-characters model. -/
def rstrip (s : List Char) : List Char :=
  (s.reverse.dropWhile isSpaceChar).reverse

/-- Python `str.lstrip()` on the list-of-characters model. -/
def lstrip (s : List Char) : List Char :=
  s.dropWhile isSpaceChar

/-- Python `str.strip()` on the list-of-characters model. -/
def strip (s : List Char) : List Char :=
  rstrip (lstrip s)

/-- src/transcriber.py line 309: the test
`self.context_buffer.endswith(('.', '!', '?', ':', ';'))`. -/
def endsWithPunct (buffer : List Char) : Bool :=
  match buffer.getLast? with
  | some c => c == '.' || c == '!' || c == '?' || c == ':' || c == ';'
  | none => false

/-- src/transcriber.py line 315: the test
`self.context_buffer.rstrip()[-1] in ('.', '!', '?')`.
The Python indexing raises IndexError on an empty string; the model returns
`false` there.  The safety theorem for the buffer invariant shows that on the
reachable states the right-stripped buffer is never empty at this test. -/
def endsSentencePunct (buffer : List Char) : Bool :=
  match (rstrip buffer).getLast? with
  | some c => c == '.' || c == '!' || c == '?'
  | none => false

/-- src/transcriber.py line 316:
`text = text[0].upper() + text[1:] if text and text[0].islower() else text`. -/
def capFirst (text : List Char) : List Char :=
  match text with
  | [] => []
  | c :: rest => if c.isLower then c.toUpper :: rest else c :: rest

/-- One iteration of the aggregation part of `TranscriberApp.process_text`
(src/transcriber.py lines 306-325): given the current `context_buffer` and a
dequeued utterance `text`, returns the new `context_buffer` together with the
string handed to the clipboard (`pyperclip.copy(text + " ")`).
The Python if/else on line 309 appends one space in both of its branches;
the model keeps both branches. -/
def process_text (buffer text : List Char) : List Char × List Char :=
  if buffer ≠ [] then
    let buffer1 := if !(endsWithPunct buffer) then buffer ++ [' '] else buffer ++ [' ']
    let text1 := if endsSentencePunct buffer1 then capFirst text else text
    (buffer1 ++ text1, text1 ++ [' '])
  else
    (buffer ++ text, text ++ [' '])

/-- The transcript obtained by processing a sequence of dequeued utterances
in order, starting from the empty `context_buffer`. -/
def aggregate (ts : List (List Char)) : List Char :=
  ts.foldl (fun b t => (process_text b t).1) []

/-- Modelled from the spec: the reference fold of section 4.3.  The first
utterance is appended verbatim; each later utterance is preceded by exactly
one separating space; the first character of the incoming utterance is
uppercased exactly when it is a lowercase letter and the transcript before
appending, after trimming trailing whitespace, ends in one of `.` `!` `?`. -/
def specFoldStep (buffer t : List Char) : List Char :=
  if buffer = [] then t
  else buffer ++ ' ' :: (if endsSentencePunct buffer then capFirst t else t)

/-- The spec section 4.3 reference fold over a sequence of utterances. -/
def specAggregate (ts : List (List Char)) : List Char :=
  ts.foldl specFoldStep []

/-- Status-bar messages emitted through `update_status`. -/
inductive StatusMsg where
  | recordingStarted
  | stopped
  | openError
  | fullContextPasted
  | noTextToPaste
  | contextCleared
  deriving DecidableEq

/-- Debug-area messages emitted through `update_debug_info`. -/
inductive DebugMsg where
  | noAudio
  | activePackets (n : Nat)
  | streamStarted
  | streamStopped
  | streamOpenError
  | deviceChanged (d : Nat)
  | dispatchError
  | decodeError
  deriving DecidableEq

/-- Messages emitted through `update_partial_text` (the in-progress
hypothesis line of the window). -/
inductive InterimMsg where
  | shown (t : List Char)
  | cleared
  deriving DecidableEq

/-- Calls made on the output sink: `pyperclip.copy(...)` and the
paste keystroke `pyautogui.hotkey(..., 'v')`. -/
inductive SinkCall where
  | copy (t : List Char)
  | paste
  deriving DecidableEq

/-- One response of the recognition adapter to a fed frame, classified by
`recognizer.AcceptWaveform`: `complete r` is a finalized result whose text is
`r`; `incomplete p` is a current in-progress hypothesis whose text is `p`. -/
inductive AdapterStep where
  | complete (resultText : List Char)
  | incomplete (interimText : List Char)
  deriving DecidableEq

/-- The mutable state of `TranscriberApp`, plus instrumentation.
Fields named as in the Python source where possible.
`streamAttr` models the `self.stream` attribute (`none` before the first
assignment); `liveStreams` lists the identifiers of currently open capture
streams; `nextStream` supplies fresh stream identifiers; `openAttempts`
counts `sd.InputStream(...)` construction attempts.  The `...Events` lists
log Qt signal emissions in order; `sinkCalls` logs output-sink effects. -/
structure AppState where
  recording : Bool
  streamAttr : Option Nat
  liveStreams : List Nat
  nextStream : Nat
  openAttempts : Nat
  audio_counter : Nat
  last_audio_time : Rat
  current_device : Option Nat
  context_buffer : List Char
  audio_queue : List (List Int)
  text_queue : List (List Char)
  sinkCalls : List SinkCall
  recEvents : List Bool
  statusEvents : List StatusMsg
  debugEvents : List DebugMsg
  previewEvents : List (List Char)
  interimEvents : List InterimMsg
  deriving DecidableEq

/-- The state built by `TranscriberApp.__init__` (src/transcriber.py
lines 147-154), with the event logs empty. -/
def initState : AppState where
  recording := false
  streamAttr := none
  liveStreams := []
  nextStream := 0
  openAttempts := 0
  audio_counter := 0
  last_audio_time := 0
  current_device := none
  context_buffer := []
  audio_queue := []
  text_queue := []
  sinkCalls := []
  recEvents := []
  statusEvents := []
  debugEvents := []
  previewEvents := []
  interimEvents := []

/-- `TranscriberApp.start_recording` (src/transcriber.py lines 245-265).
Resets the frame counter and activity timestamp, then attempts to open a
capture stream; `openFail` tells whether the `sd.InputStream(...)` /
`stream.start()` step raises.  On failure the except-branch reports the
error, sets `recording` to false and emits the inactive recording state. -/
def start_recording (s : AppState) (now : Rat) (openFail : Bool) : AppState :=
  let s1 := { s with audio_counter := 0, last_audio_time := now,
                     openAttempts := s.openAttempts + 1 }
  if openFail then
    { s1 with debugEvents := s1.debugEvents ++ [DebugMsg.streamOpenError],
              recording := false,
              recEvents := s1.recEvents ++ [false],
              statusEvents := s1.statusEvents ++ [StatusMsg.openError] }
  else
    { s1 with streamAttr := some s1.nextStream,
              liveStreams := s1.liveStreams ++ [s1.nextStream],
              nextStream := s1.nextStream + 1,
              debugEvents := s1.debugEvents ++ [DebugMsg.streamStarted] }

/-- `TranscriberApp.stop_recording` (src/transcriber.py lines 267-276).
If the `stream` attribute exists, stops and closes that stream (the model
covers the successful close; a failing close is reported in the source and
likewise leaves the controller state unchanged). -/
def stop_recording (s : AppState) : AppState :=
  match s.streamAttr with
  | none => s
  | some i =>
      { s with liveStreams := s.liveStreams.erase i,
               debugEvents := s.debugEvents ++ [DebugMsg.streamStopped] }

/-- `TranscriberApp.toggle_recording` (src/transcriber.py lines 217-226).
Flips the flag, emits the new recording state, then starts or stops. -/
def toggle_recording (s : AppState) (now : Rat) (openFail : Bool) : AppState :=
  let s1 := { s with recording := !s.recording }
  let s2 := { s1 with recEvents := s1.recEvents ++ [s1.recording] }
  if s2.recording then
    start_recording
      { s2 with statusEvents := s2.statusEvents ++ [StatusMsg.recordingStarted] }
      now openFail
  else
    stop_recording
      { s2 with statusEvents := s2.statusEvents ++ [StatusMsg.stopped] }

/-- Iterated toggling: one `toggle_recording` per entry of `times`, each
entry supplying the wall-clock time of that toggle; every stream open
succeeds. -/
def toggles (s : AppState) (times : List Rat) : AppState :=
  times.foldl (fun a now => toggle_recording a now false) s

/-- `TranscriberApp.change_device` (src/transcriber.py lines 197-207).
`deviceId` is `self.window.device_selector.itemData(index)`; when it is not
`None` the current device is updated and, only if recording is active, the
stream is stopped and restarted. -/
def change_device (s : AppState) (now : Rat) (deviceId : Option Nat)
    (openFail : Bool) : AppState :=
  match deviceId with
  | none => s
  | some d =>
      let s1 := { s with current_device := some d,
                         debugEvents := s.debugEvents ++ [DebugMsg.deviceChanged d] }
      if s1.recording then start_recording (stop_recording s1) now openFail
      else s1

/-- `TranscriberApp.check_audio_activity` (src/transcriber.py lines 209-215),
the 1 s watchdog tick.  `now` models `time.time()`. -/
def check_audio_activity (s : AppState) (now : Rat) : AppState :=
  if s.recording then
    if now - s.last_audio_time > 2 then
      { s with debugEvents := s.debugEvents ++ [DebugMsg.noAudio] }
    else
      { s with debugEvents := s.debugEvents ++ [DebugMsg.activePackets s.audio_counter] }
  else s

/-- `TranscriberApp.audio_callback` (src/transcriber.py lines 228-243) while
no device error status is raised.  The amplitude if/else on line 235 enqueues
the frame in both branches; the model keeps the common effect. -/
def audio_callback (s : AppState) (now : Rat) (frame : List Int) : AppState :=
  if s.recording then
    { s with audio_counter := s.audio_counter + 1,
             last_audio_time := now,
             audio_queue := s.audio_queue ++ [frame] }
  else s

/-- One loop body of `TranscriberApp.process_audio` (src/transcriber.py
lines 282-296) after a frame has been dequeued, parameterized by the
classified adapter response.  A finalized result is enqueued onto
`text_queue` exactly when its text is non-empty after trimming; an
in-progress hypothesis is shown exactly when its text is non-empty after
trimming. -/
def process_audio_step (s : AppState) (a : AdapterStep) : AppState :=
  match a with
  | AdapterStep.complete r =>
      if strip r ≠ [] then { s with text_queue := s.text_queue ++ [r] } else s
  | AdapterStep.incomplete p =>
      if strip p ≠ [] then
        { s with interimEvents := s.interimEvents ++ [InterimMsg.shown p] }
      else s

/-- One loop body of `TranscriberApp.process_text` (src/transcriber.py
lines 302-331) after an utterance `t` has been dequeued.  The transcript is
updated and the preview emitted before the try-block around the clipboard
dispatch; `dispatchFails` tells whether that block raises, in which case the
except-branch only reports the error. -/
def process_text_step (s : AppState) (t : List Char) (dispatchFails : Bool) :
    AppState :=
  let p := process_text s.context_buffer t
  let s1 := { s with context_buffer := p.1,
                     previewEvents := s.previewEvents ++ [p.1] }
  if dispatchFails then
    { s1 with debugEvents := s1.debugEvents ++ [DebugMsg.dispatchError] }
  else
    { s1 with sinkCalls := s1.sinkCalls ++ [SinkCall.copy p.2, SinkCall.paste],
              interimEvents := s1.interimEvents ++ [InterimMsg.cleared] }

/-- `TranscriberApp.clear_context` (src/transcriber.py lines 335-339). -/
def clear_context (s : AppState) : AppState :=
  { s with context_buffer := [],
           previewEvents := s.previewEvents ++ ["Context cleared".toList],
           statusEvents := s.statusEvents ++ [StatusMsg.contextCleared],
           interimEvents := s.interimEvents ++ [InterimMsg.cleared] }

/-- `TranscriberApp.paste_all_text` (src/transcriber.py lines 341-347). -/
def paste_all_text (s : AppState) : AppState :=
  if s.context_buffer ≠ [] then
    { s with sinkCalls := s.sinkCalls ++
               [SinkCall.copy s.context_buffer, SinkCall.paste],
             statusEvents := s.statusEvents ++ [StatusMsg.fullContextPasted] }
  else
    { s with statusEvents := s.statusEvents ++ [StatusMsg.noTextToPaste] }

/-- The stream-ownership invariant of the recording controller: idle states
own no open stream; active states own exactly the one stream recorded in the
`stream` attribute. -/
def StreamInv (s : AppState) : Prop :=
  (s.recording = false → s.liveStreams = [])
  ∧ (s.recording = true → ∃ i, s.streamAttr = some i ∧ s.liveStreams = [i])

theorem rstrip_eq_nil_iff (l : List Char) :
    rstrip l = [] ↔ l.all isSpaceChar = true := by
  simp [rstrip, List.dropWhile_eq_nil_iff, List.all_eq_true]

theorem mem_of_mem_lstrip {l : List Char} {a : Char} (h : a ∈ lstrip l) :
    a ∈ l := by
  have hs : List.Sublist (lstrip l) l := List.dropWhile_sublist isSpaceChar
  exact hs.subset h

theorem strip_eq_nil_iff (l : List Char) :
    strip l = [] ↔ l.all isSpaceChar = true := by
  rw [strip, rstrip_eq_nil_iff]
  simp only [List.all_eq_true]
  constructor
  · intro h x hx
    by_cases hxl : x ∈ lstrip l
    · exact h x hxl
    · have hsplit := List.takeWhile_append_dropWhile (p := isSpaceChar) (l := l)
      rw [← hsplit] at hx
      rcases List.mem_append.mp hx with htk | hdr
      · exact List.mem_takeWhile_imp htk
      · exact absurd hdr hxl
  · intro h x hx
    exact h x (mem_of_mem_lstrip hx)

theorem rstrip_append_space (l : List Char) :
    rstrip (l ++ [' ']) = rstrip l := by
  simp [rstrip, List.dropWhile_cons, isSpaceChar]

theorem rstrip_append_ne_nil {l : List Char} (m : List Char)
    (h : rstrip l ≠ []) : rstrip (l ++ m) ≠ [] := by
  intro hc
  apply h
  rw [rstrip_eq_nil_iff] at hc ⊢
  simp only [List.all_append, Bool.and_eq_true] at hc
  exact hc.1

theorem endsSentencePunct_append_space (b : List Char) :
    endsSentencePunct (b ++ [' ']) = endsSentencePunct b := by
  unfold endsSentencePunct
  rw [rstrip_append_space]

theorem process_text_fst_eq_spec (b t : List Char) :
    (process_text b t).1 = specFoldStep b t := by
  by_cases hb : b = []
  · subst hb; simp [process_text, specFoldStep]
  · simp [process_text, specFoldStep, hb, endsSentencePunct_append_space,
      List.append_assoc]

example :
    (process_text ("This is a test.".toList) ("next sentence".toList)).1
      = "This is a test. Next sentence".toList := by decide

example :
    (process_text ("ongoing text".toList) ("more words".toList)).1
      = "ongoing text more words".toList := by decide

/-- C1: for every sequence of finalized utterance strings (each non-empty
after trimming whitespace) processed in order by the text aggregator starting
from an empty transcript, the resulting transcript equals the deterministic
reference fold of spec section 4.3: first utterance verbatim, exactly one
separating space before each later utterance regardless of terminal
punctuation, and first-character uppercasing exactly when that character is a
lowercase letter and the prior transcript, right-trimmed, ends in
sentence-ending punctuation. -/
theorem transcript_equals_spec_fold (ts : List (List Char))
    (h : ∀ t ∈ ts, strip t ≠ []) :
    aggregate ts = specAggregate ts := by
  unfold aggregate specAggregate
  have hf : (fun b t => (process_text b t).1) = specFoldStep := by
    funext b t
    exact process_text_fst_eq_spec b t
  rw [hf]

theorem transcript_equals_spec_fold_witness :
    (∀ t ∈ [("this is a test.".toList : List Char), "next sentence".toList],
        strip t ≠ [])
    ∧ aggregate ["this is a test.".toList, "next sentence".toList]
        = specAggregate ["this is a test.".toList, "next sentence".toList] :=
  ⟨by decide, transcript_equals_spec_fold _ (by decide)⟩

/-- C2: the text dispatched to the output sink for each processed utterance
is exactly the newly appended (possibly recapitalized) fragment followed by
one trailing space, never the whole accumulated transcript; in particular,
from an empty transcript the utterance "hello world" makes the transcript
"hello world" and the dispatched fragment "hello world ". -/
theorem dispatches_fragment_only (buffer text : List Char) :
    (∃ frag, (process_text buffer text).1
        = (if buffer = [] then frag else buffer ++ ' ' :: frag)
      ∧ (process_text buffer text).2 = frag ++ [' '])
  ∧ process_text [] ("hello world".toList)
      = ("hello world".toList, "hello world ".toList) := by
  constructor
  · by_cases hb : buffer = []
    · exact ⟨text, by simp [process_text, hb], by simp [process_text, hb]⟩
    · refine ⟨if endsSentencePunct (buffer ++ [' ']) then capFirst text else text,
        ?_, ?_⟩ <;>
        simp [process_text, hb, List.append_assoc]
  · decide

/-- C3: a finalized recognition result is enqueued onto the utterance queue
if and only if its text is non-empty after trimming whitespace; a result
whose trimmed text is empty is discarded, leaving the whole state
unchanged. -/
theorem final_enqueued_iff_nonblank (s : AppState) (r : List Char) :
    ((process_audio_step s (AdapterStep.complete r)).text_queue
        = s.text_queue ++ [r] ↔ strip r ≠ [])
  ∧ ((process_audio_step s (AdapterStep.complete r)).text_queue
        = s.text_queue ↔ strip r = [])
  ∧ (strip r = [] → process_audio_step s (AdapterStep.complete r) = s) := by
  by_cases h : strip r = [] <;>
    exact ⟨by simp [process_audio_step, h], by simp [process_audio_step, h],
      fun hh => by simp [process_audio_step, hh]⟩

theorem final_enqueued_iff_nonblank_witness :
    process_audio_step initState (AdapterStep.complete ("  ".toList)) = initState :=
  (final_enqueued_iff_nonblank initState ("  ".toList)).2.2 (by decide)

/-- C4: when the clipboard dispatch for an utterance fails, the failure is
reported on the debug channel and the transcript state still advances: the
context buffer after processing equals what it is when dispatch succeeds,
namely the aggregation result for that utterance. -/
theorem dispatch_failure_still_advances (s : AppState) (t : List Char) :
    (process_text_step s t true).context_buffer
        = (process_text_step s t false).context_buffer
  ∧ (process_text_step s t true).context_buffer
        = (process_text s.context_buffer t).1
  ∧ (process_text_step s t true).debugEvents
        = s.debugEvents ++ [DebugMsg.dispatchError] :=
  ⟨rfl, rfl, rfl⟩

/-- C5: on a toggle that enters recording, if opening the capture stream
fails, the controller ends idle immediately: the recording flag is false, the
inactive recording state is the last one emitted, the failure is reported as
a status message, no stream is left open, and exactly one open attempt was
made, with no retry. -/
theorem open_failure_returns_idle (s : AppState) (now : Rat)
    (h : s.recording = false) :
    (toggle_recording s now true).recording = false
  ∧ (toggle_recording s now true).liveStreams = s.liveStreams
  ∧ (toggle_recording s now true).recEvents = s.recEvents ++ [true, false]
  ∧ (toggle_recording s now true).statusEvents
      = s.statusEvents ++ [StatusMsg.recordingStarted, StatusMsg.openError]
  ∧ (toggle_recording s now true).openAttempts = s.openAttempts + 1 := by
  refine ⟨?_, ?_, ?_, ?_, ?_⟩ <;> simp [toggle_recording, start_recording, h]

theorem open_failure_returns_idle_witness :
    (initState.recording = false)
  ∧ ((toggle_recording initState 0 true).recording = false
  ∧ (toggle_recording initState 0 true).liveStreams = initState.liveStreams
  ∧ (toggle_recording initState 0 true).recEvents
      = initState.recEvents ++ [true, false]
  ∧ (toggle_recording initState 0 true).statusEvents
      = initState.statusEvents ++ [StatusMsg.recordingStarted, StatusMsg.openError]
  ∧ (toggle_recording initState 0 true).openAttempts
      = initState.openAttempts + 1) :=
  ⟨rfl, open_failure_returns_idle initState 0 rfl⟩

/-- C6: while recording is active, a watchdog tick reports the no-audio
status exactly when the elapsed time since the last observed frame exceeds
2 seconds, and otherwise reports the active status carrying the frame
counter; while idle the tick changes nothing and reports nothing; every
entry to recording resets the frame counter. -/
theorem watchdog_tick_reports (s : AppState) (now : Rat) :
    (s.recording = true →
        (((check_audio_activity s now).debugEvents
            = s.debugEvents ++ [DebugMsg.noAudio])
          ↔ now - s.last_audio_time > 2)
      ∧ (¬ now - s.last_audio_time > 2 →
          (check_audio_activity s now).debugEvents
            = s.debugEvents ++ [DebugMsg.activePackets s.audio_counter]))
  ∧ (s.recording = false → check_audio_activity s now = s)
  ∧ (∀ openFail, (start_recording s now openFail).audio_counter = 0) := by
  refine ⟨fun hr => ⟨?_, fun hle => ?_⟩, fun hr => ?_, fun f => ?_⟩
  · by_cases hgt : now - s.last_audio_time > 2
    · simp [check_audio_activity, hr, hgt]
    · simp [check_audio_activity, hr, hgt]
  · simp [check_audio_activity, hr, hle]
  · simp [check_audio_activity, hr]
  · cases f <;> simp [start_recording]

theorem watchdog_tick_reports_witness :
    check_audio_activity initState 0 = initState
  ∧ (check_audio_activity { initState with recording := true } 3).debugEvents
      = ({ initState with recording := true } : AppState).debugEvents
          ++ [DebugMsg.noAudio] :=
  ⟨(watchdog_tick_reports initState 0).2.1 rfl,
   ((watchdog_tick_reports { initState with recording := true } 3).1 rfl).1.mpr
     (by simp [initState]; norm_num)⟩

/-- C7: invoking paste-all with an empty transcript is a no-op with a status
notification: no output-sink call is issued and the transcript stays empty;
with a non-empty transcript the entire current transcript is copied as a
single batch. -/
theorem paste_all_empty_noop (s : AppState) :
    (s.context_buffer = [] →
        (paste_all_text s).sinkCalls = s.sinkCalls
      ∧ (paste_all_text s).context_buffer = []
      ∧ (paste_all_text s).statusEvents
          = s.statusEvents ++ [StatusMsg.noTextToPaste])
  ∧ (s.context_buffer ≠ [] →
      (paste_all_text s).sinkCalls
        = s.sinkCalls ++ [SinkCall.copy s.context_buffer, SinkCall.paste]) := by
  constructor
  · intro h
    refine ⟨?_, ?_, ?_⟩ <;> simp [paste_all_text, h]
  · intro h
    simp [paste_all_text, h]

theorem paste_all_empty_noop_witness :
    ((paste_all_text initState).sinkCalls = initState.sinkCalls
  ∧ (paste_all_text initState).context_buffer = []
  ∧ (paste_all_text initState).statusEvents
      = initState.statusEvents ++ [StatusMsg.noTextToPaste])
  ∧ (paste_all_text { initState with context_buffer := "hi".toList }).sinkCalls
      = ({ initState with context_buffer := "hi".toList } : AppState).sinkCalls
        ++ [SinkCall.copy ("hi".toList), SinkCall.paste] :=
  ⟨(paste_all_empty_noop initState).1 rfl,
   (paste_all_empty_noop { initState with context_buffer := "hi".toList }).2
     (by decide)⟩

/-- C10: changing the device selection while idle updates the stored current
device but opens no capture stream, closes none, attempts no open, and
leaves the controller idle. -/
theorem change_device_idle_frame (s : AppState) (now : Rat) (d : Nat)
    (openFail : Bool) (h : s.recording = false) :
    (change_device s now (some d) openFail).current_device = some d
  ∧ (change_device s now (some d) openFail).recording = false
  ∧ (change_device s now (some d) openFail).liveStreams = s.liveStreams
  ∧ (change_device s now (some d) openFail).streamAttr = s.streamAttr
  ∧ (change_device s now (some d) openFail).openAttempts = s.openAttempts := by
  refine ⟨?_, ?_, ?_, ?_, ?_⟩ <;> simp [change_device, h]

theorem change_device_idle_frame_witness :
    (initState.recording = false)
  ∧ ((change_device initState 0 (some 5) false).current_device = some 5
  ∧ (change_device initState 0 (some 5) false).recording = false
  ∧ (change_device initState 0 (some 5) false).liveStreams = initState.liveStreams
  ∧ (change_device initState 0 (some 5) false).streamAttr = initState.streamAttr
  ∧ (change_device initState 0 (some 5) false).openAttempts
      = initState.openAttempts) :=
  ⟨rfl, change_device_idle_frame initState 0 5 false rfl⟩

theorem toggle_step_inv (s : AppState) (now : Rat) (h : StreamInv s) :
    StreamInv (toggle_recording s now false)
  ∧ (toggle_recording s now false).recording = !s.recording := by
  obtain ⟨h0, h1⟩ := h
  cases hr : s.recording
  · have hl : s.liveStreams = [] := h0 hr
    refine ⟨⟨fun hc => ?_, fun _ => ?_⟩, ?_⟩
    · simp [toggle_recording, start_recording, hr] at hc
    · exact ⟨s.nextStream, by simp [toggle_recording, start_recording, hr],
        by simp [toggle_recording, start_recording, hr, hl]⟩
    · simp [toggle_recording, start_recording, hr]
  · obtain ⟨i, hattr, hlive⟩ := h1 hr
    refine ⟨⟨fun _ => ?_, fun hc => ?_⟩, ?_⟩
    · simp [toggle_recording, stop_recording, hr, hattr, hlive]
    · simp [toggle_recording, stop_recording, hr, hattr] at hc
    · simp [toggle_recording, stop_recording, hr, hattr]

theorem toggles_inv (times : List Rat) :
    ∀ s : AppState, StreamInv s →
      StreamInv (toggles s times)
    ∧ (toggles s times).recording
        = (s.recording).xor (decide (Odd times.length)) := by
  induction times with
  | nil =>
      intro s hs
      refine ⟨hs, ?_⟩
      simp [toggles]
  | cons now rest ih =>
      intro s hs
      have hstep := toggle_step_inv s now hs
      have hrest := ih (toggle_recording s now false) hstep.1
      have h4 : toggles s (now :: rest)
          = toggles (toggle_recording s now false) rest := rfl
      refine ⟨by rw [h4]; exact hrest.1, ?_⟩
      have h2 := hrest.2
      rw [hstep.2] at h2
      have h3 : decide (Odd ((now :: rest).length))
          = !decide (Odd rest.length) := by
        rcases Nat.even_or_odd rest.length with hpar | hpar
        · have h6 : ¬ Odd rest.length := Nat.not_odd_iff_even.mpr hpar
          have h5 : Odd (rest.length + 1) := Nat.odd_add_one.mpr h6
          simp [List.length_cons, h5, h6]
        · have h5 : ¬ Odd (rest.length + 1) := by
            rw [Nat.odd_add_one]
            exact not_not_intro hpar
          simp [List.length_cons, h5, hpar]
      rw [h4, h2, h3]
      cases s.recording <;> cases hb : decide (Odd rest.length) <;> rfl

/-- C8: starting from the initial idle state, an even number of toggle
operations leaves the controller idle with no open capture stream, and an
odd number leaves it active with exactly one open capture stream. -/
theorem toggle_parity (times : List Rat) :
    (Even times.length →
        (toggles initState times).recording = false
      ∧ (toggles initState times).liveStreams = [])
  ∧ (Odd times.length →
        (toggles initState times).recording = true
      ∧ (toggles initState times).liveStreams.length = 1) := by
  have hinit : StreamInv initState :=
    ⟨fun _ => rfl, fun hc => absurd hc (by decide)⟩
  have h := toggles_inv times initState hinit
  constructor
  · intro he
    have hodd : ¬ Odd times.length := Nat.not_odd_iff_even.mpr he
    have hrec : (toggles initState times).recording = false := by
      rw [h.2]
      simp [initState, hodd]
    exact ⟨hrec, h.1.1 hrec⟩
  · intro ho
    have hrec : (toggles initState times).recording = true := by
      rw [h.2]
      simp [initState, ho]
    obtain ⟨i, _, hlive⟩ := h.1.2 hrec
    exact ⟨hrec, by rw [hlive]; rfl⟩

theorem toggle_parity_witness :
    Even ([(0 : Rat), 1].length)
  ∧ ((toggles initState [0, 1]).recording = false
     ∧ (toggles initState [0, 1]).liveStreams = []) :=
  ⟨by decide, (toggle_parity [0, 1]).1 (by decide)⟩

theorem all_isSpaceChar_eq_false_of_strip_ne {t : List Char}
    (ht : strip t ≠ []) : t.all isSpaceChar = false := by
  cases hall : t.all isSpaceChar
  · rfl
  · exact absurd ((strip_eq_nil_iff t).mpr hall) ht

theorem aggregate_step_inv {b t : List Char}
    (hb : b = [] ∨ b.all isSpaceChar = false) (ht : strip t ≠ []) :
    (process_text b t).1 = [] ∨ ((process_text b t).1).all isSpaceChar = false := by
  right
  rw [process_text_fst_eq_spec]
  unfold specFoldStep
  by_cases hbe : b = []
  · rw [if_pos hbe]
    exact all_isSpaceChar_eq_false_of_strip_ne ht
  · rcases hb with hb | hba
    · exact absurd hb hbe
    · rw [if_neg hbe, List.all_append, hba, Bool.false_and]

theorem aggregate_inv (ts : List (List Char))
    (h : ∀ t ∈ ts, strip t ≠ []) :
    aggregate ts = [] ∨ (aggregate ts).all isSpaceChar = false := by
  suffices H : ∀ (l : List (List Char)) (b : List Char),
      (∀ t ∈ l, strip t ≠ []) → (b = [] ∨ b.all isSpaceChar = false) →
      (l.foldl (fun b t => (process_text b t).1) b = []
        ∨ (l.foldl (fun b t => (process_text b t).1) b).all isSpaceChar = false) by
    exact H ts [] h (Or.inl rfl)
  intro l
  induction l with
  | nil =>
      intro b _ hb
      simpa using hb
  | cons t rest ih =>
      intro b hl hb
      exact ih _ (fun x hx => hl x (List.mem_cons_of_mem _ hx))
        (aggregate_step_inv hb (hl t (List.mem_cons_self _ _)))

/-- C9: every utterance the recognition step enqueues is already in the queue
or non-empty after trimming, and the transcript buffer reached by aggregating
any prefix of such utterances is empty or contains a non-whitespace
character; consequently, whenever the buffer is non-empty, the right-stripped
string probed by the capitalization test (the buffer with its separating
space appended) is non-empty, so its last-character indexing is safe. -/
theorem buffer_nonblank_safety (s : AppState) (r : List Char)
    (u : List Char) (ts : List (List Char)) (n : Nat)
    (h : ∀ t ∈ ts, strip t ≠ []) :
    (u ∈ (process_audio_step s (AdapterStep.complete r)).text_queue →
        u ∈ s.text_queue ∨ strip u ≠ [])
  ∧ (aggregate (ts.take n) = []
      ∨ (aggregate (ts.take n)).all isSpaceChar = false)
  ∧ (aggregate (ts.take n) ≠ [] →
      rstrip (aggregate (ts.take n) ++ [' ']) ≠ []) := by
  have htake : ∀ t ∈ ts.take n, strip t ≠ [] :=
    fun t hx => h t (List.take_subset n ts hx)
  have hinv := aggregate_inv (ts.take n) htake
  refine ⟨?_, hinv, ?_⟩
  · intro hu
    by_cases hr : strip r = []
    · rw [process_audio_step] at hu
      rw [if_neg (by simpa using hr)] at hu
      exact Or.inl hu
    · rw [process_audio_step] at hu
      rw [if_pos (by simpa using hr)] at hu
      rcases List.mem_append.mp hu with h1 | h2
      · exact Or.inl h1
      · right
        have : u = r := by simpa using h2
        rw [this]
        exact hr
  · intro hne
    rcases hinv with he | hall
    · exact absurd he hne
    · apply rstrip_append_ne_nil
      intro hcon
      rw [rstrip_eq_nil_iff] at hcon
      rw [hcon] at hall
      cases hall

theorem buffer_nonblank_safety_witness :
    aggregate (["hi".toList].take 1) = []
  ∨ (aggregate (["hi".toList].take 1)).all isSpaceChar = false :=
  (buffer_nonblank_safety initState ("x".toList) ("x".toList) ["hi".toList] 1
    (by decide)).2.1

end Transcriber
